import Mathlib

/-!
Verification of the `hostinfo` pipeline (`main.go`).

The program is a sequential pipeline: collect targets, resolve each target
to a numeric address, enrich the address via two HTTP lookups (Shodan
internetdb for security data, ipinfo.io for geolocation), cache the merged
record per resolved address, and print JSON.

We shallowly embed the program.  External effects (IP-literal parsing by
`net.ParseIP`, DNS lookup, the two HTTP fetches) are modelled by an
environment of oracle functions; each pipeline function additionally
returns the list of network events it performed so that claims about the
number and placement of network calls can be stated.
-/

namespace Hostinfo

/-- Geolocation record decoded from `https://ipinfo.io/{ip}/json`
(struct `IPInfoResponse` in main.go). -/
structure IPInfoResponse where
  hostname : String
  city : String
  region : String
  country : String
  loc : String
  org : String
  postal : String
  timezone : String
deriving DecidableEq, Repr

/-- The zero value of `IPInfoResponse` (all fields empty strings). -/
def emptyIPInfo : IPInfoResponse :=
  ⟨"", "", "", "", "", "", "", ""⟩

/-- Security record decoded from `https://internetdb.shodan.io/{ip}`
(struct `ShodanResponse` in main.go). -/
structure ShodanResponse where
  hostnames : List String
  ports : List Int
  cpes : List String
  tags : List String
  vulns : List String
deriving DecidableEq, Repr

/-- The zero value of `ShodanResponse` (all lists empty); this is what a
failed security fetch leaves behind in Go (`shodanData, _ := ...` with the
zero value on error). -/
def emptyShodan : ShodanResponse :=
  ⟨[], [], [], [], []⟩

/-- Merged output record (struct `CombinedResponse` in main.go): the
original target, the resolved IP, and the two embedded records. -/
structure CombinedResponse where
  target : String
  ip : String
  geo : IPInfoResponse
  sec : ShodanResponse
deriving DecidableEq, Repr

/-- A network interaction performed by the pipeline: a DNS name lookup, a
security-record fetch, or a geolocation-record fetch. -/
inductive NetEvent where
  | lookup (hostname : String)
  | secFetch (ip : String)
  | geoFetch (ip : String)
deriving DecidableEq, Repr

/-- Oracle environment standing for the outside world: `parseIP` is
whether `net.ParseIP` accepts the string as a numeric IP literal;
`lookupIPAddr` is the DNS resolver (result list already rendered as
strings, as `ips[i].String()` would); `fetchSec` and `fetchGeo` are the
two HTTP fetch-and-decode operations, which may fail. -/
structure Env where
  parseIP : String → Bool
  lookupIPAddr : String → Except String (List String)
  fetchSec : String → Except String ShodanResponse
  fetchGeo : String → Except String IPInfoResponse

/-- The per-run cache `cachedResponses`: a map from resolved address to
merged record, modelled as an association list with most-recent-first
lookup. -/
def Cache := List (String × CombinedResponse)

instance : DecidableEq Cache := by
  unfold Cache
  infer_instance

/-- Map lookup `cachedResponses[ip]`. -/
def Cache.find : Cache → String → Option CombinedResponse
  | [], _ => none
  | (k, v) :: rest, a => if k = a then some v else Cache.find rest a

/-- Map store `cachedResponses[ip] = combined`. -/
def Cache.insert (c : Cache) (a : String) (v : CombinedResponse) : Cache :=
  (a, v) :: c

/-- Embeds `resolveHostname` (main.go lines 86-106): perform the name lookup and
return the first address of the result list; error when the lookup errors
or the list is empty.  Also reports the lookup event that was performed. -/
def resolveHostname (env : Env) (hostname : String) :
    Except String String × List NetEvent :=
  match env.lookupIPAddr hostname with
  | .error e => (.error e, [.lookup hostname])
  | .ok [] =>
      (.error ("no IP addresses found for hostname " ++ hostname),
       [.lookup hostname])
  | .ok (ip :: _) => (.ok ip, [.lookup hostname])

/-- The resolution step at the top of `processTarget` (main.go lines
109-118): a string accepted by `net.ParseIP` is its own address and no
lookup happens; otherwise `resolveHostname` runs. -/
def resolveTarget (env : Env) (target : String) :
    Except String String × List NetEvent :=
  if env.parseIP target then (.ok target, [])
  else resolveHostname env target

/-- The enrichment half of `processTarget` (main.go lines 120-138), after
the address is known: on a cache hit return the cached record with only
the `target` field overwritten; otherwise fetch the security record
(errors suppressed to the zero value), fetch the geolocation record
(errors fatal), merge, and store in the cache. -/
def enrichResolved (env : Env) (cache : Cache) (target ip : String) :
    Except String CombinedResponse × Cache × List NetEvent :=
  match cache.find ip with
  | some c => (.ok { c with target := target }, cache, [])
  | none =>
      let sec := match env.fetchSec ip with
        | .ok s => s
        | .error _ => emptyShodan
      match env.fetchGeo ip with
      | .error e => (.error e, cache, [.secFetch ip, .geoFetch ip])
      | .ok geo =>
          let combined : CombinedResponse := ⟨target, ip, geo, sec⟩
          (.ok combined, cache.insert ip combined,
           [.secFetch ip, .geoFetch ip])

/-- Embeds `processTarget` (main.go lines 108-139): resolve, then enrich through
the cache. -/
def processTarget (env : Env) (cache : Cache) (target : String) :
    Except String CombinedResponse × Cache × List NetEvent :=
  match resolveTarget env target with
  | (.error e, evs) => (.error e, cache, evs)
  | (.ok ip, evs) =>
      match enrichResolved env cache target ip with
      | (r, cache2, evs2) => (r, cache2, evs ++ evs2)

/-- A JSON object written to standard output: either indented
(`json.MarshalIndent`, single-target mode) or compact (`json.Marshal`,
batch mode). -/
inductive JsonOut where
  | indented (r : CombinedResponse)
  | compact (r : CombinedResponse)
deriving DecidableEq, Repr

/-- The standard-error line written for a failing target (main.go line
147). -/
def errorLine (target err : String) : String :=
  "Error processing target " ++ target ++ ": " ++ err

/-- Result of a batch run: the JSON objects printed to standard output in
order, the lines printed to standard error in order, the final cache, and
the network events in order. -/
structure RunResult where
  stdout : List JsonOut
  stderr : List String
  cache : Cache
  net : List NetEvent
deriving DecidableEq

/-- The loop body of `processTargets` (main.go lines 144-167), iterated
over the target list: each failing target contributes one stderr line and
the loop continues; each successful target contributes one JSON object,
indented when `singleTarget` and compact otherwise.  (JSON marshalling of
`CombinedResponse` cannot fail, so the marshal-error branches are dead.) -/
def processLoop (env : Env) (cache : Cache) (singleTarget : Bool) :
    List String → RunResult
  | [] => ⟨[], [], cache, []⟩
  | t :: rest =>
      match processTarget env cache t with
      | (.error e, cache2, evs) =>
          let r := processLoop env cache2 singleTarget rest
          ⟨r.stdout, errorLine t e :: r.stderr, r.cache, evs ++ r.net⟩
      | (.ok rec, cache2, evs) =>
          let r := processLoop env cache2 singleTarget rest
          ⟨(if singleTarget then JsonOut.indented rec
             else JsonOut.compact rec) :: r.stdout,
           r.stderr, r.cache, evs ++ r.net⟩

/-- Embeds `processTargets` (main.go lines 141-168): the cache starts empty, then
the loop runs over all targets. -/
def processTargets (env : Env) (targets : List String)
    (singleTarget : Bool) : RunResult :=
  processLoop env [] singleTarget targets

/-! ### Input collection (`main`, main.go lines 170-229) -/

/-- Go's `unicode.IsSpace` restricted to the characters that occur in the
Latin-1 range (space, tab, newline, vertical tab, form feed, carriage
return, NEL, no-break space); `strings.TrimSpace` trims these. -/
def goIsSpace (c : Char) : Bool :=
  c = ' ' || c = '\t' || c = '\n' || c = Char.ofNat 11 ||
  c = Char.ofNat 12 || c = '\r' || c = Char.ofNat 0x85 ||
  c = Char.ofNat 0xA0

/-- Embeds `strings.TrimSpace` on a character list: drop leading and trailing
white space. -/
def trimSpaceL (l : List Char) : List Char :=
  ((l.dropWhile goIsSpace).reverse.dropWhile goIsSpace).reverse

/-- Wraps `trimSpaceL` on a string, i.e. `strings.TrimSpace`. -/
def trimSpace (s : String) : String :=
  String.mk (trimSpaceL s.data)

/-- Split a character list at every occurrence of `sep`; always returns at
least one (possibly empty) part. -/
def splitOnChar (sep : Char) : List Char → List (List Char)
  | [] => [[]]
  | c :: cs =>
      match splitOnChar sep cs with
      | [] => [[]]
      | p :: ps => if c = sep then [] :: p :: ps else (c :: p) :: ps

/-- The `dropCR` step of `bufio.ScanLines`: remove one trailing carriage
return from a line. -/
def dropCR (l : List Char) : List Char :=
  if l.getLast? = some '\r' then l.dropLast else l

/-- The tokens produced by `bufio.Scanner` with the default `ScanLines`
split function over a whole file: lines separated by `'\n'`, each with a
trailing `'\r'` removed; a final unterminated line is still returned, but
a terminating final newline does not produce an extra empty token.  This
is the file branch of `main` (lines 186-189): `scanner.Text()` is appended
verbatim, with no trimming. -/
def fileTargets (content : List Char) : List String :=
  let parts := splitOnChar '\n' content
  let parts := if parts.getLast? = some [] then parts.dropLast else parts
  parts.map (fun l => String.mk (dropCR l))

/-- The stdin read loop of `main` (lines 210-221): `bufio.Reader.ReadString`
returns each `'\n'`-terminated chunk (delimiter included), which is trimmed
and appended to the target list; at `io.EOF` the loop breaks WITHOUT
appending the remainder, so a final chunk not terminated by a newline is
discarded.  `acc` holds the characters of the current chunk, in reverse. -/
def readLines : List Char → List Char → List String
  | [], _ => []
  | c :: cs, acc =>
      if c = '\n' then
        trimSpace (String.mk (c :: acc).reverse) :: readLines cs []
      else readLines cs (c :: acc)

/-- The stdin branch of `main`: read `'\n'`-terminated lines, trimmed. -/
def stdinTargetsL (content : List Char) : List String :=
  readLines content []

/-- Wraps `stdinTargetsL` on a string. -/
def stdinTargets (s : String) : List String :=
  stdinTargetsL s.data

/-- The part of the outside world `main` consults while collecting
targets: the positional arguments left by `flag.Parse`, which paths exist
(`os.Stat` succeeding), file contents, whether stdin is an interactive
terminal, and the stdin stream contents. -/
structure World where
  args : List String
  statOk : String → Bool
  fileContent : String → List Char
  stdinIsTerminal : Bool
  stdin : String

/-- What `main` does after collecting targets (main.go lines 170-229):
print usage and exit, report `no targets provided` and exit, or run the
pipeline on a target list with the single-target flag. -/
inductive CollectResult where
  | usage
  | noTargets
  | run (targets : List String) (singleTarget : Bool)
deriving DecidableEq, Repr

/-- The target list and mode flag `main` collects before the empty check:
a first argument naming an existing file is read line by line (batch
mode); a first argument not naming a file is itself the single target
(single-target mode); with no argument, an interactive stdin prints usage,
otherwise stdin is read line by line (batch mode).  `none` stands for the
usage-and-exit path. -/
def collectRaw (w : World) : Option (List String × Bool) :=
  match w.args with
  | a :: _ =>
      if w.statOk a then some (fileTargets (w.fileContent a), false)
      else some ([a], true)
  | [] =>
      if w.stdinIsTerminal then none
      else some (stdinTargets w.stdin, false)

/-- Embeds `main` (lines 170-229): collect targets, early-exit on usage or on an
empty list, otherwise run the pipeline. -/
def collectTargets (w : World) : CollectResult :=
  match collectRaw w with
  | none => .usage
  | some (targets, single) =>
      if targets = [] then .noTargets else .run targets single

/-! ### Spec-side definitions, used only to compare against the code -/

/-- Written from the spec's words for the Input Collector ("read it line
by line, each line (trimmed) is a Target"): the file's scanner lines, each
additionally trimmed of surrounding whitespace. -/
def specFileTargets (content : List Char) : List String :=
  (fileTargets content).map trimSpace

/-- Written from the spec's words for the Pipeline Driver output: one JSON
object per successfully processed target, in input order, indented in
single-target mode and compact in batch mode; failed targets contribute
nothing to standard output. -/
def specStdout (env : Env) (cache : Cache) (singleTarget : Bool) :
    List String → List JsonOut
  | [] => []
  | t :: rest =>
      match processTarget env cache t with
      | (.error _, cache2, _) => specStdout env cache2 singleTarget rest
      | (.ok rec, cache2, _) =>
          (if singleTarget then JsonOut.indented rec
           else JsonOut.compact rec) :: specStdout env cache2 singleTarget rest

/-- Returns `true` iff an `Except` value is a success. -/
def exceptOk {ε α : Type} : Except ε α → Bool
  | .ok _ => true
  | .error _ => false

/-- Returns `true` iff a network event is one of the two enrichment HTTP fetches
(as opposed to a DNS lookup). -/
def isFetch : NetEvent → Bool
  | .lookup _ => false
  | .secFetch _ => true
  | .geoFetch _ => true

/-- Returns `true` iff a network event is an enrichment fetch for address `a`. -/
def fetchesAddr (a : String) : NetEvent → Bool
  | .lookup _ => false
  | .secFetch ip => ip = a
  | .geoFetch ip => ip = a

/-- Returns `true` iff a network event is a DNS name lookup. -/
def isLookup : NetEvent → Bool
  | .lookup _ => true
  | .secFetch _ => false
  | .geoFetch _ => false

/-! ### Concrete fixtures for witnesses -/

/-- A concrete environment: two IP literals, one resolvable hostname, a
security fetch that fails on `9.9.9.9`, and a geolocation fetch that fails
on `7.7.7.7`. -/
def envA : Env where
  parseIP s := s = "1.1.1.1" || s = "8.8.8.8" || s = "7.7.7.7"
  lookupIPAddr h :=
    if h = "dns.example" then .ok ["9.9.9.9", "149.112.112.112"]
    else .error "lookup failed"
  fetchSec ip :=
    if ip = "9.9.9.9" then .error "shodan down"
    else .ok ⟨["dns.google"], [53, 443], [], [], ["CVE-2020-0001"]⟩
  fetchGeo ip :=
    if ip = "7.7.7.7" then .error "geo down"
    else .ok ⟨"dns.google", "Mountain View", "California", "US",
              "37.4,-122.0", "AS15169 Google LLC", "94043",
              "America/Los_Angeles"⟩

/-- A concrete cached record for `8.8.8.8`. -/
def recA : CombinedResponse :=
  ⟨"earlier-target", "8.8.8.8",
   ⟨"dns.google", "Mountain View", "California", "US", "37.4,-122.0",
    "AS15169 Google LLC", "94043", "America/Los_Angeles"⟩,
   ⟨["dns.google"], [53], [], [], []⟩⟩

/-- A concrete cache holding `recA` under key `8.8.8.8`. -/
def cacheA : Cache := [("8.8.8.8", recA)]

/-- The geolocation record `envA.fetchGeo` returns for every address other
than `7.7.7.7`. -/
def geoA : IPInfoResponse :=
  ⟨"dns.google", "Mountain View", "California", "US", "37.4,-122.0",
   "AS15169 Google LLC", "94043", "America/Los_Angeles"⟩

/-- The record `processTarget` builds for `dns.example` under `envA`: the
hostname resolves to `9.9.9.9`, whose security fetch fails (empty security
fields) and whose geolocation fetch succeeds. -/
def recB : CombinedResponse :=
  ⟨"dns.example", "9.9.9.9", geoA, emptyShodan⟩

/-- A concrete world whose only argument names an existing file containing
one line with surrounding whitespace. -/
def worldFile : World where
  args := ["targets.txt"]
  statOk s := s = "targets.txt"
  fileContent _ := " 8.8.8.8 \n".data
  stdinIsTerminal := false
  stdin := ""

/-- A concrete world with no arguments and a non-interactive stdin whose
whole content is a single line not terminated by a newline. -/
def worldStdin : World where
  args := []
  statOk _ := false
  fileContent _ := []
  stdinIsTerminal := false
  stdin := "8.8.8.8"

/-! ### Helper lemmas -/

/-- Looking up `a` after storing under `ip` finds the new record iff
`ip = a` and otherwise falls through to the old cache. -/
theorem Cache.find_insert (c : Cache) (ip a : String) (v : CombinedResponse) :
    (c.insert ip v).find a = if ip = a then some v else c.find a := rfl

/-- Resolution performs either no network event (IP literal) or exactly
one name lookup. -/
theorem resolveTarget_events (env : Env) (t : String) :
    (resolveTarget env t).2 = [] ∨
    (resolveTarget env t).2 = [NetEvent.lookup t] := by
  unfold resolveTarget resolveHostname
  by_cases h : env.parseIP t
  · simp [h]
  · simp only [h, Bool.false_eq_true, if_false]
    cases env.lookupIPAddr t with
    | error e => simp
    | ok l => cases l <;> simp

/-- Processing any target leaves an already-cached address untouched: no
enrichment fetch for that address is performed and the address remains
cached. -/
theorem processTarget_preserves_cached (env : Env) (cache : Cache)
    (t a : String) (h : (cache.find a).isSome = true) :
    (∀ e ∈ (processTarget env cache t).2.2, fetchesAddr a e = false) ∧
    ((processTarget env cache t).2.1.find a).isSome = true := by
  have hev := resolveTarget_events env t
  cases hr : resolveTarget env t with
  | mk r evs =>
    rw [hr] at hev
    have hevf : ∀ e ∈ evs, fetchesAddr a e = false := by
      rcases hev with h1 | h1 <;> subst h1 <;> simp [fetchesAddr]
    cases r with
    | error e =>
        refine ⟨fun e' he' => ?_, ?_⟩
        · simp only [processTarget, hr] at he'
          exact hevf e' he'
        · simpa [processTarget, hr] using h
    | ok ip =>
        simp only [processTarget, hr]
        cases hc : cache.find ip with
        | some c =>
            simp only [enrichResolved, hc]
            exact ⟨by simpa using hevf, h⟩
        | none =>
            have hne : ip ≠ a := by
              intro hh
              rw [hh, ] at hc
              rw [hc] at h
              simp at h
            simp only [enrichResolved, hc]
            cases hg : env.fetchGeo ip with
            | error err =>
                refine ⟨fun e' he' => ?_, h⟩
                simp only [List.mem_append] at he'
                rcases he' with h1 | h1
                · exact hevf e' h1
                · simp only [List.mem_cons] at h1
                  rcases h1 with h1 | h1 | h1
                  · subst h1; simp [fetchesAddr, hne]
                  · subst h1; simp [fetchesAddr, hne]
                  · simp at h1
            | ok geo =>
                refine ⟨fun e' he' => ?_, ?_⟩
                · simp only [List.mem_append] at he'
                  rcases he' with h1 | h1
                  · exact hevf e' h1
                  · simp only [List.mem_cons] at h1
                    rcases h1 with h1 | h1 | h1
                    · subst h1; simp [fetchesAddr, hne]
                    · subst h1; simp [fetchesAddr, hne]
                    · simp at h1
                · simpa [Cache.find_insert, hne] using h

/-- Over a whole batch, no enrichment fetch is ever performed for an
address that is already in the cache when the batch starts. -/
theorem processLoop_preserves_cached (env : Env) (single : Bool)
    (a : String) :
    ∀ (targets : List String) (cache : Cache),
      (cache.find a).isSome = true →
      ∀ e ∈ (processLoop env cache single targets).net,
        fetchesAddr a e = false := by
  intro targets
  induction targets with
  | nil =>
      intro cache h e he
      simp [processLoop] at he
  | cons t rest ih =>
      intro cache h e he
      have hpt := processTarget_preserves_cached env cache t a h
      cases hr : processTarget env cache t with
      | mk r p =>
        cases p with
        | mk cache2 evs =>
          rw [hr] at hpt
          cases r with
          | error err =>
              simp only [processLoop, hr, List.mem_append] at he
              rcases he with h1 | h1
              · exact hpt.1 e h1
              · exact ih cache2 hpt.2 e h1
          | ok rec =>
              simp only [processLoop, hr, List.mem_append] at he
              rcases he with h1 | h1
              · exact hpt.1 e h1
              · exact ih cache2 hpt.2 e h1

/-! ### Claim theorems -/

/-- C1: if the target's resolved address already has a cache entry, the
record returned for the target equals the cached record in every field
except `target`, which is set to the current target string; in particular
the `ip`, geolocation and security fields are unchanged. -/
theorem cacheHit_only_target_differs (env : Env) (cache : Cache)
    (target ip : String) (c : CombinedResponse) (evs : List NetEvent)
    (hres : resolveTarget env target = (.ok ip, evs))
    (hc : cache.find ip = some c) :
    ∃ r, (processTarget env cache target).1 = .ok r ∧
      r.target = target ∧ r.ip = c.ip ∧ r.geo = c.geo ∧ r.sec = c.sec := by
  simp only [processTarget, hres, enrichResolved, hc]
  exact ⟨_, rfl, rfl, rfl, rfl, rfl⟩

/-- Witness for C1 at a concrete input: target `8.8.8.8` with `cacheA`
already holding a record for address `8.8.8.8`. -/
theorem cacheHit_only_target_differs_witness :
    ∃ r, (processTarget envA cacheA "8.8.8.8").1 = .ok r ∧
      r.target = "8.8.8.8" ∧ r.ip = recA.ip ∧ r.geo = recA.geo ∧
      r.sec = recA.sec :=
  cacheHit_only_target_differs envA cacheA "8.8.8.8" "8.8.8.8" recA []
    rfl (by decide)

/-- C6: a target accepted as a numeric IP literal resolves to itself and
no name lookup event occurs while processing it. -/
theorem ipLiteral_resolver_identity (env : Env) (target : String)
    (cache : Cache) (h : env.parseIP target = true) :
    resolveTarget env target = (.ok target, []) ∧
    ((processTarget env cache target).2.2).all
      (fun e => !(isLookup e)) = true := by
  have hres : resolveTarget env target = (.ok target, []) := by
    simp [resolveTarget, h]
  refine ⟨hres, ?_⟩
  simp only [processTarget, hres, enrichResolved]
  cases hc : cache.find target with
  | some c => simp
  | none =>
      cases hg : env.fetchGeo target with
      | error e => simp [isLookup]
      | ok geo => simp [isLookup]

/-- Witness for C6 at a concrete input: the IP-literal target `1.1.1.1`
under `envA` with an empty cache. -/
theorem ipLiteral_resolver_identity_witness :
    resolveTarget envA "1.1.1.1" = (.ok "1.1.1.1", []) ∧
    ((processTarget envA [] "1.1.1.1").2.2).all
      (fun e => !(isLookup e)) = true :=
  ipLiteral_resolver_identity envA "1.1.1.1" [] rfl

/-- C7: for a target that is not a numeric IP literal, resolution returns
the first address of the lookup result when it is non-empty, and fails
exactly when the lookup errors or returns an empty list. -/
theorem resolver_first_address (env : Env) (target ip : String)
    (rest : List String) (hnot : env.parseIP target = false) :
    (env.lookupIPAddr target = .ok (ip :: rest) →
        (resolveTarget env target).1 = .ok ip) ∧
    (exceptOk (resolveTarget env target).1 = false ↔
        exceptOk (env.lookupIPAddr target) = false ∨
        env.lookupIPAddr target = .ok []) := by
  constructor
  · intro hlk
    simp [resolveTarget, hnot, resolveHostname, hlk]
  · simp only [resolveTarget, hnot, Bool.false_eq_true, if_false,
      resolveHostname]
    cases hl : env.lookupIPAddr target with
    | error e => simp [exceptOk]
    | ok l => cases l <;> simp [exceptOk]

/-- Witness for C7 at a concrete input: the hostname `dns.example` under
`envA`, whose lookup returns `["9.9.9.9", "149.112.112.112"]`. -/
theorem resolver_first_address_witness :
    (resolveTarget envA "dns.example").1 = .ok "9.9.9.9" ∧
    (exceptOk (resolveTarget envA "dns.example").1 = false ↔
        exceptOk (envA.lookupIPAddr "dns.example") = false ∨
        envA.lookupIPAddr "dns.example" = .ok []) :=
  ⟨(resolver_first_address envA "dns.example" "9.9.9.9"
      ["149.112.112.112"] rfl).1 rfl,
   (resolver_first_address envA "dns.example" "9.9.9.9"
      ["149.112.112.112"] rfl).2⟩

/-- C2 counterexample: under `envA`, address `7.7.7.7` has a failing
geolocation fetch, so nothing is cached and the batch
`["7.7.7.7", "7.7.7.7"]` performs TWO security fetches (and two
geolocation fetches) for that single resolved address — refuting "at most
one pair of enrichment fetches per distinct resolved address". -/
theorem secFetch_twice_on_geoFailure :
    ¬ ((processTargets envA ["7.7.7.7", "7.7.7.7"] false).net.count
        (NetEvent.secFetch "7.7.7.7") ≤ 1) := by decide

/-- C2 (amended): no enrichment fetch is performed for an address already
in the cache — a cache hit performs no fetch calls, a successful
enrichment stores the merged record keyed by the resolved address, and
thereafter no target of the batch fetches that address again. -/
theorem enrichment_skipped_when_cached (env : Env) :
    (∀ (cache : Cache) (target ip : String) (c : CombinedResponse)
        (evs : List NetEvent),
        resolveTarget env target = (.ok ip, evs) →
        cache.find ip = some c →
        ((processTarget env cache target).2.2).all
          (fun e => !(isFetch e)) = true) ∧
    (∀ (cache : Cache) (target ip : String) (evs evs2 : List NetEvent)
        (r : CombinedResponse) (cache2 : Cache),
        resolveTarget env target = (.ok ip, evs) →
        cache.find ip = none →
        processTarget env cache target = (.ok r, cache2, evs2) →
        cache2.find ip = some r) ∧
    (∀ (cache : Cache) (a : String) (targets : List String)
        (single : Bool),
        (cache.find a).isSome = true →
        ((processLoop env cache single targets).net).all
          (fun e => !(fetchesAddr a e)) = true) := by
  refine ⟨?_, ?_, ?_⟩
  · intro cache target ip c evs hres hc
    have hev := resolveTarget_events env target
    rw [hres] at hev
    simp only [processTarget, hres, enrichResolved, hc]
    rcases hev with h1 | h1 <;> subst h1 <;> simp [isFetch]
  · intro cache target ip evs evs2 r cache2 hres hc hpt
    simp only [processTarget, hres, enrichResolved, hc] at hpt
    cases hg : env.fetchGeo ip with
    | error e =>
        rw [hg] at hpt
        simp at hpt
    | ok geo =>
        rw [hg] at hpt
        simp only [Prod.mk.injEq, Except.ok.injEq] at hpt
        obtain ⟨h1, h2, h3⟩ := hpt
        rw [← h2, ← h1, Cache.find_insert]
        simp
  · intro cache a targets single h
    rw [List.all_eq_true]
    intro e he
    have := processLoop_preserves_cached env single a targets cache h e he
    simp [this]

/-- Witness for C2 (amended) at concrete inputs: a cache hit on `8.8.8.8`
performs no fetches; enriching `dns.example` stores the merged record
under `9.9.9.9`; a batch run started with `8.8.8.8` cached never fetches
`8.8.8.8`. -/
theorem enrichment_skipped_when_cached_witness :
    ((processTarget envA cacheA "8.8.8.8").2.2).all
      (fun e => !(isFetch e)) = true ∧
    (Cache.insert [] "9.9.9.9" recB).find "9.9.9.9" = some recB ∧
    ((processLoop envA cacheA false ["8.8.8.8", "dns.example"]).net).all
      (fun e => !(fetchesAddr "8.8.8.8" e)) = true :=
  ⟨(enrichment_skipped_when_cached envA).1 cacheA "8.8.8.8" "8.8.8.8"
      recA [] rfl rfl,
   (enrichment_skipped_when_cached envA).2.1 [] "dns.example" "9.9.9.9"
      [NetEvent.lookup "dns.example"]
      [NetEvent.lookup "dns.example", NetEvent.secFetch "9.9.9.9",
       NetEvent.geoFetch "9.9.9.9"]
      recB (Cache.insert [] "9.9.9.9" recB) rfl rfl rfl,
   (enrichment_skipped_when_cached envA).2.2 cacheA "8.8.8.8"
      ["8.8.8.8", "dns.example"] false rfl⟩

/-- C3: for a target not served from the cache, a failed security fetch is
suppressed (the record is produced with the empty security record exactly
when geolocation succeeds), while a failed geolocation fetch fails the
whole target with its error; the target succeeds iff the geolocation fetch
succeeds. -/
theorem secFailure_suppressed_geoFailure_fatal (env : Env) (cache : Cache)
    (target ip : String) (evs : List NetEvent) (err : String)
    (info : IPInfoResponse)
    (hres : resolveTarget env target = (.ok ip, evs))
    (hc : cache.find ip = none) :
    exceptOk (processTarget env cache target).1 =
      exceptOk (env.fetchGeo ip) ∧
    (env.fetchSec ip = .error err → env.fetchGeo ip = .ok info →
        (processTarget env cache target).1 =
          .ok ⟨target, ip, info, emptyShodan⟩) ∧
    (env.fetchGeo ip = .error err →
        (processTarget env cache target).1 = .error err) := by
  refine ⟨?_, ?_, ?_⟩
  · cases hg : env.fetchGeo ip with
    | error e => simp [processTarget, hres, enrichResolved, hc, hg, exceptOk]
    | ok geo => simp [processTarget, hres, enrichResolved, hc, hg, exceptOk]
  · intro hsec hgeo
    simp [processTarget, hres, enrichResolved, hc, hsec, hgeo]
  · intro hgeo
    simp [processTarget, hres, enrichResolved, hc, hgeo]

/-- Witness for C3 at concrete inputs: `dns.example` resolves to
`9.9.9.9`, whose security fetch fails but geolocation succeeds, yielding a
record with empty security fields; `7.7.7.7` has a failing geolocation
fetch and its processing fails with that error. -/
theorem secFailure_suppressed_geoFailure_fatal_witness :
    exceptOk (processTarget envA [] "dns.example").1 =
      exceptOk (envA.fetchGeo "9.9.9.9") ∧
    (processTarget envA [] "dns.example").1 = .ok recB ∧
    (processTarget envA [] "7.7.7.7").1 = .error "geo down" :=
  ⟨(secFailure_suppressed_geoFailure_fatal envA [] "dns.example" "9.9.9.9"
      [NetEvent.lookup "dns.example"] "shodan down" geoA rfl rfl).1,
   (secFailure_suppressed_geoFailure_fatal envA [] "dns.example" "9.9.9.9"
      [NetEvent.lookup "dns.example"] "shodan down" geoA rfl rfl).2.1
      rfl rfl,
   (secFailure_suppressed_geoFailure_fatal envA [] "7.7.7.7" "7.7.7.7"
      [] "geo down" geoA rfl rfl).2.2 rfl⟩

/-- C10: when the security fetch fails but geolocation succeeds, the
merged record (with empty security fields) is still stored in the cache
under the resolved address; any later target resolving to that address is
answered from the cache with the same empty security fields, and no
enrichment fetch for that address ever happens again in the batch. -/
theorem emptySec_record_cached_and_reused (env : Env) (cache : Cache)
    (target ip t2 : String) (evs evs2 : List NetEvent) (err : String)
    (info : IPInfoResponse) (targets : List String) (single : Bool)
    (hres : resolveTarget env target = (.ok ip, evs))
    (hc : cache.find ip = none)
    (hsec : env.fetchSec ip = .error err)
    (hgeo : env.fetchGeo ip = .ok info) :
    processTarget env cache target =
      (.ok ⟨target, ip, info, emptyShodan⟩,
       cache.insert ip ⟨target, ip, info, emptyShodan⟩,
       evs ++ [.secFetch ip, .geoFetch ip]) ∧
    (resolveTarget env t2 = (.ok ip, evs2) →
        (processTarget env
            (cache.insert ip ⟨target, ip, info, emptyShodan⟩) t2).1 =
          .ok ⟨t2, ip, info, emptyShodan⟩) ∧
    ((processLoop env (cache.insert ip ⟨target, ip, info, emptyShodan⟩)
        single targets).net).all (fun e => !(fetchesAddr ip e)) = true := by
  refine ⟨?_, ?_, ?_⟩
  · simp [processTarget, hres, enrichResolved, hc, hsec, hgeo]
  · intro hres2
    have hfind : (cache.insert ip ⟨target, ip, info, emptyShodan⟩).find ip =
        some ⟨target, ip, info, emptyShodan⟩ := by
      rw [Cache.find_insert]
      simp
    simp [processTarget, hres2, enrichResolved, hfind]
  · rw [List.all_eq_true]
    intro e he
    have hsome : ((cache.insert ip
        ⟨target, ip, info, emptyShodan⟩).find ip).isSome = true := by
      rw [Cache.find_insert]
      simp
    have := processLoop_preserves_cached env single ip targets _ hsome e he
    simp [this]

/-- Witness for C10 at concrete inputs: `dns.example` resolves to
`9.9.9.9` under `envA` (failing security fetch, successful geolocation);
the record with empty security fields is cached, a second target
`other.example` resolving to the same address reuses it, and a following
batch performs no fetch for `9.9.9.9`. -/
theorem emptySec_record_cached_and_reused_witness :
    processTarget envA [] "dns.example" =
      (.ok recB, Cache.insert [] "9.9.9.9" recB,
       [NetEvent.lookup "dns.example", NetEvent.secFetch "9.9.9.9",
        NetEvent.geoFetch "9.9.9.9"]) ∧
    (processTarget envA (Cache.insert [] "9.9.9.9" recB) "dns.example").1 =
      .ok ⟨"dns.example", "9.9.9.9", geoA, emptyShodan⟩ ∧
    ((processLoop envA (Cache.insert [] "9.9.9.9" recB) false
        ["dns.example", "1.1.1.1"]).net).all
      (fun e => !(fetchesAddr "9.9.9.9" e)) = true :=
  ⟨(emptySec_record_cached_and_reused envA [] "dns.example" "9.9.9.9"
      "dns.example" [NetEvent.lookup "dns.example"]
      [NetEvent.lookup "dns.example"] "shodan down" geoA
      ["dns.example", "1.1.1.1"] false rfl rfl rfl rfl).1,
   (emptySec_record_cached_and_reused envA [] "dns.example" "9.9.9.9"
      "dns.example" [NetEvent.lookup "dns.example"]
      [NetEvent.lookup "dns.example"] "shodan down" geoA
      ["dns.example", "1.1.1.1"] false rfl rfl rfl rfl).2.1 rfl,
   (emptySec_record_cached_and_reused envA [] "dns.example" "9.9.9.9"
      "dns.example" [NetEvent.lookup "dns.example"]
      [NetEvent.lookup "dns.example"] "shodan down" geoA
      ["dns.example", "1.1.1.1"] false rfl rfl rfl rfl).2.2⟩

/-- C5: a failing target contributes exactly one stderr line — the line
names the failing target — and the batch continues: the remaining targets
are processed exactly as they would be on their own. -/
theorem perTarget_failure_one_error_line (env : Env) (cache : Cache)
    (t : String) (rest : List String) (single : Bool) (err : String)
    (cache2 : Cache) (evs : List NetEvent)
    (hpt : processTarget env cache t = (.error err, cache2, evs)) :
    processLoop env cache single (t :: rest) =
      ⟨(processLoop env cache2 single rest).stdout,
       errorLine t err :: (processLoop env cache2 single rest).stderr,
       (processLoop env cache2 single rest).cache,
       evs ++ (processLoop env cache2 single rest).net⟩ ∧
    errorLine t err = "Error processing target " ++ t ++ ": " ++ err := by
  refine ⟨?_, rfl⟩
  simp [processLoop, hpt]

/-- Witness for C5 at a concrete input: the first target `badhost` fails
to resolve under `envA` and yields one error line naming it, while the
second target `1.1.1.1` is still processed. -/
theorem perTarget_failure_one_error_line_witness :
    processLoop envA [] false ["badhost", "1.1.1.1"] =
      ⟨(processLoop envA [] false ["1.1.1.1"]).stdout,
       errorLine "badhost" "lookup failed" ::
         (processLoop envA [] false ["1.1.1.1"]).stderr,
       (processLoop envA [] false ["1.1.1.1"]).cache,
       [NetEvent.lookup "badhost"] ++
         (processLoop envA [] false ["1.1.1.1"]).net⟩ ∧
    errorLine "badhost" "lookup failed" =
      "Error processing target " ++ "badhost" ++ ": " ++ "lookup failed" :=
  perTarget_failure_one_error_line envA [] "badhost" ["1.1.1.1"] false
    "lookup failed" [] [NetEvent.lookup "badhost"] rfl

/-- C4 counterexample: in single-target mode a failing target writes no
JSON object at all — the run on the single target `badhost`, whose lookup
fails under `envA`, writes zero, not exactly one, indented JSON objects. -/
theorem singleMode_failure_writes_no_object :
    (processTargets envA ["badhost"] true).stdout = [] ∧
    (processTargets envA ["badhost"] true).stdout.length ≠ 1 := by decide

/-- The driver's stdout stream refines the spec-side description, for any
starting cache. -/
theorem processLoop_stdout_spec (env : Env) (single : Bool) :
    ∀ (targets : List String) (cache : Cache),
      (processLoop env cache single targets).stdout =
        specStdout env cache single targets := by
  intro targets
  induction targets with
  | nil => intro cache; rfl
  | cons t rest ih =>
      intro cache
      cases hpt : processTarget env cache t with
      | mk r p =>
        cases p with
        | mk cache2 evs =>
          cases r with
          | error e => simp [processLoop, specStdout, hpt, ih]
          | ok rec => simp [processLoop, specStdout, hpt, ih]

/-- C4 (amended): the JSON objects written to standard output are exactly
one per successfully processed target, in input order, indented in
single-target mode and compact in batch mode, with failed targets
contributing nothing — i.e. the stdout stream equals the spec-side
`specStdout`. -/
theorem stdout_matches_specStdout (env : Env) (targets : List String)
    (single : Bool) :
    (processTargets env targets single).stdout =
      specStdout env [] single targets :=
  processLoop_stdout_spec env single targets []

/-- C8 counterexample: file lines are NOT trimmed of surrounding
whitespace — for a file whose single line is ` 8.8.8.8 ` (note the
spaces), the collector produces the untrimmed target ` 8.8.8.8 `, which
differs from the spec's trimmed reading. -/
theorem fileLines_not_trimmed :
    collectTargets worldFile = .run [" 8.8.8.8 "] false ∧
    fileTargets " 8.8.8.8 \n".data ≠ specFileTargets " 8.8.8.8 \n".data ∧
    trimSpace " 8.8.8.8 " ≠ " 8.8.8.8 " := by decide

/-- C8 (amended): when the positional argument names an existing file, the
collector produces one Target per line of the file exactly as the line
scanner returns it (newline removed, a trailing carriage return dropped,
no whitespace trimming), and selects batch mode. -/
theorem fileArg_scanner_lines (w : World) (a : String)
    (rest : List String) (hargs : w.args = a :: rest)
    (hstat : w.statOk a = true) :
    collectRaw w = some (fileTargets (w.fileContent a), false) := by
  simp [collectRaw, hargs, hstat]

/-- Witness for C8 (amended) at a concrete input: `worldFile`, whose
argument `targets.txt` names an existing file. -/
theorem fileArg_scanner_lines_witness :
    collectRaw worldFile =
      some (fileTargets (worldFile.fileContent "targets.txt"), false) :=
  fileArg_scanner_lines worldFile "targets.txt" [] rfl (by decide)

/-- A stream without any newline character yields no stdin target at all,
whatever is in the accumulator. -/
theorem readLines_no_newline (t : List Char) (h : ∀ c ∈ t, c ≠ '\n') :
    ∀ acc, readLines t acc = [] := by
  induction t with
  | nil => intro acc; rfl
  | cons c cs ih =>
      intro acc
      have hc : c ≠ '\n' := h c (List.mem_cons_self c cs)
      have ih2 := ih fun c2 hc2 => h c2 (List.mem_cons_of_mem c hc2)
      simp [readLines, hc, ih2]

/-- Appending a newline-free tail to a stream does not change the stdin
targets read from it: the unterminated tail is discarded. -/
theorem readLines_drop_unterminated (t : List Char)
    (h : ∀ c ∈ t, c ≠ '\n') :
    ∀ (s acc : List Char), readLines (s ++ t) acc = readLines s acc := by
  intro s
  induction s with
  | nil =>
      intro acc
      simp [readLines, readLines_no_newline t h]
  | cons c cs ih =>
      intro acc
      by_cases hc : c = '\n'
      · simp [readLines, hc, ih]
      · simp [readLines, hc, ih]

/-- C9: a final stdin line not terminated by a newline is discarded — it
never becomes a Target; a stream consisting only of such a line yields an
empty target list, and `main` then takes the `no targets provided` early
exit. -/
theorem unterminated_stdin_line_discarded (s t : List Char) (w : World)
    (hn : ∀ c ∈ t, c ≠ '\n') (hargs : w.args = [])
    (htty : w.stdinIsTerminal = false) (hstdin : w.stdin.data = t) :
    stdinTargetsL (s ++ t) = stdinTargetsL s ∧
    stdinTargetsL t = [] ∧
    collectTargets w = .noTargets := by
  refine ⟨readLines_drop_unterminated t hn s [],
    readLines_no_newline t hn [], ?_⟩
  simp [collectTargets, collectRaw, hargs, htty, stdinTargets,
    stdinTargetsL, hstdin, readLines_no_newline t hn]

/-- Witness for C9 at a concrete input: the stream `first\n8.8.8.8` reads
the same targets as `first\n` alone, the unterminated stream `8.8.8.8`
yields no targets, and `worldStdin` (stdin holding just `8.8.8.8` with no
newline) hits the `no targets provided` early exit. -/
theorem unterminated_stdin_line_discarded_witness :
    stdinTargetsL ("first\n".data ++ "8.8.8.8".data) =
      stdinTargetsL "first\n".data ∧
    stdinTargetsL "8.8.8.8".data = [] ∧
    collectTargets worldStdin = .noTargets :=
  unterminated_stdin_line_discarded "first\n".data "8.8.8.8".data
    worldStdin (by decide) rfl rfl rfl

end Hostinfo
